import Mathlib

/-!
Verification of the procedure/operation synthesis engine of the
prisma-orpc-generator repository, as a shallow embedding in Lean 4.

The definitions below are transcribed from the TypeScript sources:

* `src/generators/code-generator.ts` — procedure naming
  (`getProcedureName`), per-model procedure selection
  (`generateModelProcedures`), and the centralized Prisma error mapper
  (`prismaErrorMapper` inside `generateErrorHandlingModule`);
* `src/generators/shield-generator.ts` (in `orpc-generator.ts`) — the
  authorization ("shield") rule synthesis;
* `src/utils/operation-utils.ts` — `shouldGenerateOperation`,
  `getPrismaMethodName`;
* `src/utils/model-utils.ts` — `getAvailableAggregations`;
* `src/utils/code-generation-utils.ts` — `generateHandlerCode`, i.e. the
  data-access call shape and runtime result handling of each generated
  handler (soft-delete rewrites, group-by/aggregate construction,
  not-found policy, response shaping).

Generated handler *code strings* are modelled by their semantics: for each
operation kind, model and configuration we compute the Prisma call the
generated handler would issue (`buildPrismaCall`) and the value/error it
would return given the underlying database result (`runHandler`).
JavaScript truthiness is modelled explicitly where the generator relies on
it (absent object fields as `Option.none`, numeric truthiness as
"present and nonzero").
-/

deriving instance DecidableEq for Except

namespace PrismaOrpcGen

/-! ## Configuration

The generator configuration fields consumed by the synthesis core
(`src/config/schema.ts` consumers).  `defaultReadRule` / `defaultWriteRule`
are kept as raw strings because the shield generator branches on them
defensively, including a branch for unrecognized values. -/

structure Config where
  showModelNameInProcedure : Bool
  generateModelActions : List String
  enableSoftDeletes : Bool
  wrapResponses : Bool
  defaultReadRule : String
  defaultWriteRule : String
  deriving DecidableEq, Repr

/-! ## Model shape (CodeGenModel / PrismaModel fields used by the core) -/

structure CodeGenField where
  name : String
  type : String
  isId : Bool := false
  isList : Bool := false
  deriving DecidableEq, Repr

structure CodeGenModel where
  name : String
  fields : List CodeGenField
  deriving DecidableEq, Repr

/-- code-generation-utils.ts `generateHandlerCode`:
`model?.fields?.some((f) => f.name === 'deletedAt')`. -/
def hasDeletedAtField (model : CodeGenModel) : Bool :=
  model.fields.any (fun f => f.name = "deletedAt")

/-! ## Procedure naming (code-generator.ts `getProcedureName`) -/

/-- JavaScript `String.prototype.toLowerCase` restricted to ASCII
identifiers (model names). -/
def jsToLower (s : String) : String :=
  String.mk (s.data.map Char.toLower)

/-- JavaScript `s.charAt(0).toUpperCase() + s.slice(1)`. -/
def jsCapitalize (s : String) : String :=
  match s.data with
  | [] => s
  | c :: rest => String.mk (c.toUpper :: rest)

/-- JavaScript `s.charAt(0).toLowerCase() + s.slice(1)` — lower-camel-case
with internal capitalization retained (used by the shield generator's
`toLowerCamelCase` and by the repo's tests as the intended casing). -/
def lowerFirst (s : String) : String :=
  match s.data with
  | [] => s
  | c :: rest => String.mk (c.toLower :: rest)

/-- The `operationMap` lookup table in `getProcedureName`, with the
`operationMap[baseOpType] || baseOpType` fallback. -/
def operationMapTable : List (String × String) :=
  [("create", "create"), ("createMany", "createMany"),
   ("findFirst", "findFirst"), ("findMany", "findMany"),
   ("findUnique", "findById"), ("update", "update"),
   ("updateMany", "updateMany"), ("upsert", "upsert"),
   ("delete", "delete"), ("deleteMany", "deleteMany"),
   ("count", "count"), ("aggregate", "aggregate"),
   ("groupBy", "groupBy")]

def operationNameFor (baseOpType : String) : String :=
  (operationMapTable.lookup baseOpType).getD baseOpType

/-- code-generator.ts `getProcedureName`: the prefix is
`modelName.toLowerCase()` (the whole name lower-cased) when
`showModelNameInProcedure` is set, and the operation name is capitalized
and appended; with no prefix the bare operation name is returned. -/
def getProcedureName (cfg : Config) (baseOpType modelName : String) : String :=
  let pre := if cfg.showModelNameInProcedure then jsToLower modelName else ""
  let operation := operationNameFor baseOpType
  if pre = "" then operation else pre ++ jsCapitalize operation

/-! ## Per-model procedure selection (code-generator.ts
`generateModelProcedures` + operation-utils.ts `shouldGenerateOperation`) -/

/-- operation-utils.ts: `config.generateModelActions.includes(opType)`. -/
def shouldGenerateOperation (opType : String) (cfg : Config) : Bool :=
  cfg.generateModelActions.contains opType

/-- Character-list worker for `stripOrThrow`: delete the first occurrence
of the pattern `OrThrow` (7 characters). -/
def stripOrThrowAux : List Char → List Char
  | [] => []
  | c :: rest =>
    if List.isPrefixOf "OrThrow".data (c :: rest) then List.drop 7 (c :: rest)
    else c :: stripOrThrowAux rest

/-- JavaScript `opType.replace('OrThrow', '')` — removes the first
occurrence of the substring `OrThrow`. -/
def stripOrThrow (s : String) : String :=
  String.mk (stripOrThrowAux s.data)

/-- `const essentialOperations = ['create', 'findMany', 'findUnique',
'update', 'delete', 'count'];` -/
def essentialOperations : List String :=
  ["create", "findMany", "findUnique", "update", "delete", "count"]

/-- The first loop of `generateModelProcedures`: iterate the DMMF model
operation entries (the `model` key is skipped), de-`OrThrow` the key,
de-duplicate, and keep it when the configured action list allows it.
`generated` accumulates the base operation types in insertion order. -/
def generateOpsLoop (cfg : Config) : List String → List String → List String
  | [], generated => generated
  | opType :: rest, generated =>
    if opType = "model" then generateOpsLoop cfg rest generated
    else
      let baseOpType := stripOrThrow opType
      if generated.contains baseOpType then generateOpsLoop cfg rest generated
      else if shouldGenerateOperation baseOpType cfg then
        generateOpsLoop cfg rest (generated ++ [baseOpType])
      else generateOpsLoop cfg rest generated

/-- One step of the "ensure essential operations are included" loop. -/
def addEssential (cfg : Config) (generated : List String) (essentialOp : String) : List String :=
  if generated.contains essentialOp then generated
  else if shouldGenerateOperation essentialOp cfg then generated ++ [essentialOp]
  else generated

/-- The second loop of `generateModelProcedures`: essential operations are
appended when missing — but still only when `shouldGenerateOperation`
allows them. -/
def ensureEssentials (cfg : Config) (generated : List String) : List String :=
  essentialOperations.foldl (addEssential cfg) generated

/-- The set (insertion-ordered list) of base operation types generated for
a model whose DMMF operation-mapping entry has keys `operationKeys`. -/
def generateModelBaseOps (cfg : Config) (operationKeys : List String) : List String :=
  ensureEssentials cfg (generateOpsLoop cfg operationKeys [])

/-- The procedure names emitted into the model router (the object keys of
the `<router>Procedures` literal). -/
def modelProcedureNames (cfg : Config) (modelName : String)
    (operationKeys : List String) : List String :=
  (generateModelBaseOps cfg operationKeys).map
    (fun b => getProcedureName cfg b modelName)

/-! ## Shield synthesis (shield-generator.ts) -/

/-- The rule expressions a generated shield table can reference. -/
inductive ShieldRule where
  | allow
  | deny
  | isAuthenticated
  deriving DecidableEq, Repr

/-- `generateRulesForModel`, read half: `'auth'` ⇒ authenticated-only,
`'deny'` ⇒ deny, `'allow'` ⇒ allow, anything else ⇒ deny (secure
default). -/
def resolveReadRule (defaultReadRule : String) : ShieldRule :=
  if defaultReadRule = "auth" then ShieldRule.isAuthenticated
  else if defaultReadRule = "deny" then ShieldRule.deny
  else if defaultReadRule = "allow" then ShieldRule.allow
  else ShieldRule.deny

/-- `generateRulesForModel`, write half: same branching and same secure
default as the read half. -/
def resolveWriteRule (defaultWriteRule : String) : ShieldRule :=
  if defaultWriteRule = "auth" then ShieldRule.isAuthenticated
  else if defaultWriteRule = "deny" then ShieldRule.deny
  else if defaultWriteRule = "allow" then ShieldRule.allow
  else ShieldRule.deny

/-- The recognized configuration values handled by explicit branches of
`generateRulesForModel`. -/
def recognizedRuleValues : List String :=
  ["auth", "deny", "allow"]

/-- `generateModelShieldConfig`'s `operationMappings` table: Prisma
operation ↦ shield key.  Note `findMany ↦ "list"`. -/
def shieldOperationMappings : List (String × String) :=
  [("findMany", "list"), ("findUnique", "findById"),
   ("findFirst", "findFirst"), ("create", "create"),
   ("createMany", "createMany"), ("update", "update"),
   ("updateMany", "updateMany"), ("upsert", "upsert"),
   ("delete", "delete"), ("deleteMany", "deleteMany"),
   ("count", "count"), ("aggregate", "aggregate"),
   ("groupBy", "groupBy")]

/-- `isWriteOperation` of shield-generator.ts. -/
def isWriteOperation (operation : String) : Bool :=
  ["create", "createMany", "update", "updateMany", "upsert",
   "delete", "deleteMany"].contains operation

/-- `toLowerCamelCase` of shield-generator.ts (the outer, per-model key of
the shield table). -/
def toLowerCamelCase (name : String) : String :=
  if name = "" then name else lowerFirst name

/-- The per-model shield rule table: every entry of `operationMappings` is
emitted, keyed by the shield key, with the write rule for write
operations and the read rule otherwise.  The configured action allow-list
plays no role here. -/
def generateModelShieldEntries (cfg : Config) : List (String × ShieldRule) :=
  shieldOperationMappings.map
    (fun p => (p.2, if isWriteOperation p.1 then resolveWriteRule cfg.defaultWriteRule
                    else resolveReadRule cfg.defaultReadRule))

/-- The key set (as a list, in emission order) of a model's shield rule
table. -/
def shieldRuleKeys (cfg : Config) : List String :=
  (generateModelShieldEntries cfg).map Prod.fst

/-! ## Handler semantics (code-generation-utils.ts `generateHandlerCode`)

The generated handler is a code string; we embed what it does: the Prisma
call it issues (`buildPrismaCall`) and the value/error it returns given
the underlying result (`runHandler`). -/

/-- A JavaScript value stored under the `deletedAt` key of a where-clause:
an explicit `null`, a date, or any other caller-supplied value. -/
inductive JsMarker where
  | nullVal
  | dateVal (t : Nat)
  | objVal (s : String)
  deriving DecidableEq, Repr

/-- A where-clause object: the `deletedAt` field is tracked precisely
(`none` = the key is absent / `undefined`); all other filter fields are
carried opaquely and never touched by the generator. -/
structure WhereClause where
  deletedAt : Option JsMarker := none
  rest : List (String × String) := []
  deriving DecidableEq, Repr

/-- An `orderBy` value in an emitted call: either forwarded from the
caller or the synthesized ascending-by-id ordering. -/
inductive OrderBySpec where
  | fromCaller (s : String)
  | idAsc
  deriving DecidableEq, Repr

/-- A `_count` selection in an emitted call: forwarded from the caller or
the defaulted all-rows count. -/
inductive CountSel where
  | fromCaller (s : String)
  | allTrue
  deriving DecidableEq, Repr

/-- A `data` argument in an emitted call: the caller's payload, or the
soft-delete rewrite's marker-setting object (deletedAt := current time). -/
inductive DataClause where
  | payload (s : String)
  | setDeletedAtNow
  deriving DecidableEq, Repr

/-- The runtime input object received by a generated handler.  `none`
everywhere models an absent (`undefined`) field; object-valued fields are
truthy whenever present, numeric fields are truthy when present and
nonzero. -/
structure HandlerInput where
  whereClause : Option WhereClause := none
  data : Option String := none
  byList : Option (List String) := none
  orderBy : Option String := none
  having : Option String := none
  take : Option Int := none
  skip : Option Int := none
  countSel : Option String := none
  sumSel : Option String := none
  avgSel : Option String := none
  minSel : Option String := none
  maxSel : Option String := none
  upsertCreate : Option String := none
  upsertUpdate : Option String := none
  deriving DecidableEq, Repr

/-- The argument object of the Prisma call a generated handler issues. -/
structure CallArgs where
  whereClause : Option WhereClause := none
  data : Option DataClause := none
  byList : Option (List String) := none
  orderBy : Option OrderBySpec := none
  having : Option String := none
  take : Option Int := none
  skip : Option Int := none
  countSel : Option CountSel := none
  sumSel : Option String := none
  avgSel : Option String := none
  minSel : Option String := none
  maxSel : Option String := none
  upsertCreate : Option String := none
  upsertUpdate : Option String := none
  deriving DecidableEq, Repr

/-- The data-access call a generated handler performs: the Prisma client
method name and its argument object. -/
structure PrismaCall where
  method : String
  args : CallArgs
  deriving DecidableEq, Repr

/-- JavaScript truthiness of a possibly-absent number (`undefined` and `0`
are falsy). -/
def jsTruthyOptInt : Option Int → Bool
  | none => false
  | some n => n ≠ 0

/-- A JavaScript object spread `{...input}`: every input field forwarded
unchanged into the call arguments. -/
def passthroughArgs (input : HandlerInput) : CallArgs :=
  { whereClause := input.whereClause,
    data := input.data.map DataClause.payload,
    byList := input.byList,
    orderBy := input.orderBy.map OrderBySpec.fromCaller,
    having := input.having,
    take := input.take,
    skip := input.skip,
    countSel := input.countSel.map CountSel.fromCaller,
    sumSel := input.sumSel,
    avgSel := input.avgSel,
    minSel := input.minSel,
    maxSel := input.maxSel,
    upsertCreate := input.upsertCreate,
    upsertUpdate := input.upsertUpdate }

/-- The soft-delete filter injection:
`if (!queryArgs.where) queryArgs.where = {};`
`if (queryArgs.where.deletedAt === undefined) queryArgs.where.deletedAt = null;` -/
def injectDeletedAt (w : Option WhereClause) : WhereClause :=
  let w0 := w.getD {}
  if w0.deletedAt = none then { w0 with deletedAt := some JsMarker.nullVal }
  else w0

/-- The update/updateMany soft-delete where-spread
`{ ...input.where, deletedAt: null }` (unconditionally sets the key). -/
def spreadWhereWithNull (w : Option WhereClause) : WhereClause :=
  { w.getD {} with deletedAt := some JsMarker.nullVal }

/-- The `methodMap` of operation-utils.ts `getPrismaMethodName` (each
known kind maps to itself). -/
def prismaMethodMapTable : List (String × String) :=
  [("create", "create"), ("createMany", "createMany"),
   ("findFirst", "findFirst"), ("findMany", "findMany"),
   ("findUnique", "findUnique"), ("update", "update"),
   ("updateMany", "updateMany"), ("upsert", "upsert"),
   ("delete", "delete"), ("deleteMany", "deleteMany"),
   ("count", "count"), ("aggregate", "aggregate"),
   ("groupBy", "groupBy")]

/-- operation-utils.ts `getPrismaMethodName`, with the `|| opType`
fallback. -/
def getPrismaMethodName (opType : String) : String :=
  (prismaMethodMapTable.lookup opType).getD opType

/-! ### Aggregation eligibility (model-utils.ts `getAvailableAggregations`) -/

structure Aggregations where
  hasNumericFields : Bool
  hasComparableFields : Bool
  supportsSum : Bool
  supportsAvg : Bool
  supportsMin : Bool
  supportsMax : Bool
  supportsCount : Bool
  deriving DecidableEq, Repr

def numericTypes : List String :=
  ["Int", "Float", "Decimal", "BigInt"]

def comparableTypes : List String :=
  numericTypes ++ ["DateTime", "String"]

def getAvailableAggregations (model : CodeGenModel) : Aggregations :=
  let numericFields := model.fields.filter
    (fun f => numericTypes.contains f.type && !f.isList)
  let comparableFields := model.fields.filter
    (fun f => comparableTypes.contains f.type && !f.isList)
  { hasNumericFields := !numericFields.isEmpty,
    hasComparableFields := !comparableFields.isEmpty,
    supportsSum := !numericFields.isEmpty,
    supportsAvg := !numericFields.isEmpty,
    supportsMin := !comparableFields.isEmpty,
    supportsMax := !comparableFields.isEmpty,
    supportsCount := true }

/-! ### The emitted data-access call, per operation kind -/

/-- The `inputParam` switch of `generateHandlerCode` (used by the final
`else` branch of the handler body). -/
def finalInputParam (cfg : Config) (model : CodeGenModel)
    (baseOpType : String) (input : HandlerInput) : CallArgs :=
  if baseOpType = "create" then
    { data := input.data.map DataClause.payload }
  else if baseOpType = "createMany" then passthroughArgs input
  else if baseOpType = "findFirst" ∨ baseOpType = "findMany" then
    passthroughArgs input
  else if baseOpType = "findUnique" then
    { whereClause := input.whereClause }
  else if baseOpType = "update" ∨ baseOpType = "updateMany" then
    if cfg.enableSoftDeletes && hasDeletedAtField model then
      { whereClause := some (spreadWhereWithNull input.whereClause),
        data := input.data.map DataClause.payload }
    else
      { whereClause := input.whereClause,
        data := input.data.map DataClause.payload }
  else if baseOpType = "delete" ∨ baseOpType = "deleteMany" then
    { whereClause := input.whereClause }
  else if baseOpType = "count" ∨ baseOpType = "aggregate" ∨ baseOpType = "groupBy" then
    passthroughArgs input
  else if baseOpType = "upsert" then
    { whereClause := input.whereClause,
      upsertCreate := input.upsertCreate,
      upsertUpdate := input.upsertUpdate }
  else passthroughArgs input

/-- The group-by branch of `generateHandlerCode` (reached only when the
soft-delete read branch did not fire): defaults an empty `by` list to
`['id']`, forwards where/having, caps `take` at 500, and synthesizes
`orderBy: [{ id: 'asc' }]` when pagination is present without an
ordering; aggregation selections are forwarded only when the model
supports them. -/
def groupByBranchArgs (model : CodeGenModel) (input : HandlerInput) : CallArgs :=
  let aggs := getAvailableAggregations model
  let argsBy : Option (List String) :=
    match input.byList with
    | none => none
    | some l => some (if l.isEmpty then ["id"] else l)
  let argsOrderBy0 := input.orderBy.map OrderBySpec.fromCaller
  let argsTake : Option Int :=
    if jsTruthyOptInt input.take then some (min (input.take.getD 0) 500) else none
  let argsSkip : Option Int :=
    if jsTruthyOptInt input.skip then input.skip else none
  let argsOrderBy :=
    if (jsTruthyOptInt argsTake || jsTruthyOptInt argsSkip) && argsOrderBy0.isNone
    then some OrderBySpec.idAsc else argsOrderBy0
  { byList := argsBy,
    whereClause := input.whereClause,
    orderBy := argsOrderBy,
    having := input.having,
    take := argsTake,
    skip := argsSkip,
    countSel := if aggs.supportsCount then input.countSel.map CountSel.fromCaller else none,
    sumSel := if aggs.supportsSum then input.sumSel else none,
    avgSel := if aggs.supportsAvg then input.avgSel else none,
    minSel := if aggs.supportsMin then input.minSel else none,
    maxSel := if aggs.supportsMax then input.maxSel else none }

/-- The aggregate branch of `generateHandlerCode`: spread the input and,
when no aggregate selection is present, default `_count: { _all: true }`. -/
def aggregateBranchArgs (input : HandlerInput) : CallArgs :=
  let base := passthroughArgs input
  if input.countSel = none ∧ input.avgSel = none ∧ input.sumSel = none ∧
     input.minSel = none ∧ input.maxSel = none then
    { base with countSel := some CountSel.allTrue }
  else base

/-- The Prisma call issued by the generated handler for `baseOpType`,
mirroring the if/else-if chain of `generateHandlerCode` (soft-delete
branches first, then the group-by and aggregate branches, then the
generic call with `finalInputParam`). -/
def buildPrismaCall (cfg : Config) (model : CodeGenModel)
    (baseOpType : String) (input : HandlerInput) : PrismaCall :=
  if ((cfg.enableSoftDeletes || hasDeletedAtField model) && hasDeletedAtField model) &&
     (["findFirst", "findMany", "count", "aggregate", "groupBy"].contains baseOpType) then
    { method := getPrismaMethodName baseOpType,
      args := { passthroughArgs input with
                whereClause := some (injectDeletedAt input.whereClause) } }
  else if ((cfg.enableSoftDeletes || hasDeletedAtField model) && hasDeletedAtField model) &&
          baseOpType = "findUnique" then
    { method := "findUnique",
      args := { passthroughArgs input with
                whereClause := some (injectDeletedAt input.whereClause) } }
  else if ((cfg.enableSoftDeletes || hasDeletedAtField model) && hasDeletedAtField model) &&
          baseOpType = "delete" then
    { method := "update",
      args := { whereClause := input.whereClause,
                data := some DataClause.setDeletedAtNow } }
  else if ((cfg.enableSoftDeletes || hasDeletedAtField model) && hasDeletedAtField model) &&
          baseOpType = "deleteMany" then
    { method := "updateMany",
      args := { whereClause := input.whereClause,
                data := some DataClause.setDeletedAtNow } }
  else if baseOpType = "groupBy" then
    { method := "groupBy", args := groupByBranchArgs model input }
  else if baseOpType = "aggregate" then
    { method := "aggregate", args := aggregateBranchArgs input }
  else if baseOpType = "delete" then
    { method := "delete", args := { whereClause := input.whereClause } }
  else if baseOpType = "deleteMany" then
    { method := "deleteMany", args := { whereClause := input.whereClause } }
  else
    { method := getPrismaMethodName baseOpType,
      args := finalInputParam cfg model baseOpType input }

/-! ### Runtime result handling (not-found policy, response shaping) -/

/-- The result the underlying Prisma call produces at runtime.  A
`record`'s `deletedAt` column is `none` (SQL null) or `some t` (a date,
truthy in JavaScript). -/
inductive DbResult where
  | nullRes
  | record (deletedAt : Option Nat) (payload : String)
  | listRes (payloads : List String)
  | numRes (n : Nat)
  | batchRes (count : Nat)
  | otherRes (s : String)
  deriving DecidableEq, Repr

/-- JavaScript truthiness of `result.deletedAt`. -/
def dbTruthyDeletedAt : DbResult → Bool
  | DbResult.record (some _) _ => true
  | _ => false

/-- The sole error condition a generated handler raises itself. -/
inductive HandlerErr where
  | notFound
  deriving DecidableEq, Repr

/-- The shape of the value the handler returns before/after envelope
wrapping: count results become `{ count: result }`. -/
inductive BaseRet where
  | plain (r : DbResult)
  | countWrap (r : DbResult)
  deriving DecidableEq, Repr

/-- The handler's returned value; `envelope` is the `wrapResponses`
success envelope carrying the operation tag (its runtime timestamp field
is not modelled). -/
inductive RetVal where
  | bare (b : BaseRet)
  | envelope (b : BaseRet) (operation : String)
  deriving DecidableEq, Repr

/-- The return-shaping section of `generateHandlerCode`. -/
def shapeReturn (cfg : Config) (baseOpType : String) (result : DbResult) : RetVal :=
  let base := if baseOpType = "count" then BaseRet.countWrap result else BaseRet.plain result
  if cfg.wrapResponses then RetVal.envelope base baseOpType else RetVal.bare base

/-- The runtime behaviour of the generated handler after the data-access
call returned `result`: `findUnique`/`findFirst` throw `NOT_FOUND` on a
falsy result, and additionally (for soft-delete models) on a record whose
`deletedAt` is truthy; every other operation returns the shaped result. -/
def runHandler (cfg : Config) (model : CodeGenModel)
    (baseOpType : String) (result : DbResult) : Except HandlerErr RetVal :=
  if baseOpType = "findUnique" ∨ baseOpType = "findFirst" then
    if result = DbResult.nullRes then Except.error HandlerErr.notFound
    else if ((cfg.enableSoftDeletes || hasDeletedAtField model) && hasDeletedAtField model) &&
            dbTruthyDeletedAt result then Except.error HandlerErr.notFound
    else Except.ok (shapeReturn cfg baseOpType result)
  else Except.ok (shapeReturn cfg baseOpType result)

/-! ## Error taxonomy mapper (code-generator.ts `prismaErrorMapper`) -/

/-- The inputs the centralized error mapper distinguishes: an error that
already looks like an ORPC error (string `code` + numeric `status`), a
`PrismaClientKnownRequestError` with its code, a
`PrismaClientValidationError`, or anything else. -/
inductive PrismaErrorInput where
  | orpcLike (code : String) (status : Int)
  | knownRequest (code : String)
  | validation
  | unknownErr (tag : String)
  deriving DecidableEq, Repr

/-- What the mapper throws. -/
inductive MappedError where
  | conflict
  | notFound
  | badRequest
  | internalServerError
  | rethrownOriginal (code : String) (status : Int)
  deriving DecidableEq, Repr

/-- `prismaErrorMapper` of the generated errorHandling module: ORPC-shaped
errors are re-thrown as-is; known Prisma request errors map by code
(P2002/P2003 ⇒ CONFLICT, P2025/P2016/P2021 ⇒ NOT_FOUND, P2022/P2000 ⇒
BAD_REQUEST, other codes fall through); validation errors map to
BAD_REQUEST; everything else to INTERNAL_SERVER_ERROR. -/
def prismaErrorMapper : PrismaErrorInput → MappedError
  | PrismaErrorInput.orpcLike c s => MappedError.rethrownOriginal c s
  | PrismaErrorInput.knownRequest c =>
    if c = "P2002" ∨ c = "P2003" then MappedError.conflict
    else if c = "P2025" ∨ c = "P2016" ∨ c = "P2021" then MappedError.notFound
    else if c = "P2022" ∨ c = "P2000" then MappedError.badRequest
    else MappedError.internalServerError
  | PrismaErrorInput.validation => MappedError.badRequest
  | PrismaErrorInput.unknownErr _ => MappedError.internalServerError

/-- A low-level data-layer error signal (anything that is not already an
ORPC-shaped error). -/
def isLowLevel : PrismaErrorInput → Bool
  | PrismaErrorInput.orpcLike _ _ => false
  | _ => true

/-! ## Concrete fixtures (schemas and configurations used by witnesses,
counterexamples and sanity checks) -/

/-- The thirteen base operation kinds (the effective default
`generateModelActions` allow-list covers all of them). -/
def allBaseActions : List String :=
  ["create", "createMany", "findFirst", "findMany", "findUnique",
   "update", "updateMany", "upsert", "delete", "deleteMany",
   "count", "aggregate", "groupBy"]

/-- The keys of a full DMMF model-operations entry, as produced by Prisma
(`model` plus the operation names, including the `OrThrow` variants). -/
def fullOperationKeys : List String :=
  ["model", "findUnique", "findUniqueOrThrow", "findFirst",
   "findFirstOrThrow", "findMany", "create", "createMany", "update",
   "updateMany", "upsert", "delete", "deleteMany", "aggregate",
   "groupBy", "count"]

/-- Default-like configuration: model-name prefixing on, all actions,
soft deletes off. -/
def defaultCfg : Config :=
  { showModelNameInProcedure := true,
    generateModelActions := allBaseActions,
    enableSoftDeletes := false,
    wrapResponses := false,
    defaultReadRule := "allow",
    defaultWriteRule := "auth" }

/-- Same but with the global soft-delete toggle enabled. -/
def softCfg : Config :=
  { defaultCfg with enableSoftDeletes := true }

/-- Same as `defaultCfg` but without model-name prefixing. -/
def noPrefixCfg : Config :=
  { defaultCfg with showModelNameInProcedure := false }

/-- An entity with a soft-delete marker field. -/
def postModel : CodeGenModel :=
  { name := "Post",
    fields := [{ name := "id", type := "String", isId := true },
               { name := "title", type := "String" },
               { name := "deletedAt", type := "DateTime" }] }

/-- An entity without a soft-delete marker. -/
def userModel : CodeGenModel :=
  { name := "User",
    fields := [{ name := "id", type := "String", isId := true },
               { name := "email", type := "String" },
               { name := "name", type := "String" }] }

/-- An entity with zero numeric fields (and no soft-delete marker). -/
def tagModel : CodeGenModel :=
  { name := "Tag",
    fields := [{ name := "id", type := "String", isId := true },
               { name := "label", type := "String" }] }

/-! Sanity checks of the embedding on concrete values. -/

example : jsToLower "AccommodationPricing" = "accommodationpricing" := by decide

example : lowerFirst "AccommodationPricing" = "accommodationPricing" := by decide

example : stripOrThrow "findUniqueOrThrow" = "findUnique" := by decide

example : operationNameFor "findUnique" = "findById" := by decide

example : getProcedureName defaultCfg "findUnique" "User" = "userFindById" := by decide

example :
    generateModelBaseOps defaultCfg fullOperationKeys =
      ["findUnique", "findFirst", "findMany", "create", "createMany",
       "update", "updateMany", "upsert", "delete", "deleteMany",
       "aggregate", "groupBy", "count"] := by decide

example :
    shieldRuleKeys defaultCfg =
      ["list", "findById", "findFirst", "create", "createMany", "update",
       "updateMany", "upsert", "delete", "deleteMany", "count",
       "aggregate", "groupBy"] := by decide

example : hasDeletedAtField postModel = true := by decide

example : hasDeletedAtField userModel = false := by decide

example :
    buildPrismaCall softCfg postModel "delete" { whereClause := some {} } =
      { method := "update",
        args := { whereClause := some {},
                  data := some DataClause.setDeletedAtNow } } := by decide

example :
    (buildPrismaCall defaultCfg userModel "groupBy" { take := some 600 }).args.take =
      some 500 := by decide

example :
    (buildPrismaCall softCfg postModel "groupBy" { take := some 600 }).args.take =
      some 600 := by decide

example :
    (buildPrismaCall defaultCfg userModel "groupBy" { byList := some [] }).args.byList =
      some ["id"] := by decide

example :
    (buildPrismaCall defaultCfg userModel "aggregate" {}).args.countSel =
      some CountSel.allTrue := by decide

example :
    runHandler softCfg postModel "findUnique" (DbResult.record (some 5) "x") =
      Except.error HandlerErr.notFound := by decide

example :
    runHandler defaultCfg userModel "updateMany" (DbResult.batchRes 0) =
      Except.ok (RetVal.bare (BaseRet.plain (DbResult.batchRes 0))) := by decide

example : prismaErrorMapper (PrismaErrorInput.knownRequest "P2002") = MappedError.conflict := by
  decide

example : prismaErrorMapper (PrismaErrorInput.knownRequest "P9999") =
    MappedError.internalServerError := by decide

/-! ## Helper lemmas -/

theorem contains_iff_mem (l : List String) (x : String) :
    l.contains x = true ↔ x ∈ l := by
  simp [List.contains, List.elem_iff]

theorem softGateBool (a b : Bool) : ((a || b) && b) = b := by
  cases a <;> cases b <;> rfl

/-- Elements produced by the first loop of `generateModelProcedures` were
either already accumulated or pass the configured allow-list. -/
theorem mem_of_generateOpsLoop (cfg : Config) :
    ∀ (entries acc : List String) (x : String),
      x ∈ generateOpsLoop cfg entries acc →
      x ∈ acc ∨ shouldGenerateOperation x cfg = true := by
  intro entries
  induction entries with
  | nil =>
    intro acc x h
    simpa [generateOpsLoop] using Or.inl h
  | cons e rest ih =>
    intro acc x h
    simp only [generateOpsLoop] at h
    split_ifs at h with h1 h2 h3
    · exact ih acc x h
    · exact ih acc x h
    · rcases ih _ x h with hin | hgen
      · rcases List.mem_append.mp hin with hin | hin
        · exact Or.inl hin
        · have hx : x = stripOrThrow e := by simpa using hin
          subst hx
          exact Or.inr h3
      · exact Or.inr hgen
    · exact ih acc x h

/-- Folding `addEssential` never drops accumulated elements. -/
theorem mem_foldl_addEssential_of_mem (cfg : Config) (l : List String) :
    ∀ (acc : List String) (x : String),
      x ∈ acc → x ∈ l.foldl (addEssential cfg) acc := by
  induction l with
  | nil =>
    intro acc x h
    simpa using h
  | cons e rest ih =>
    intro acc x h
    rw [List.foldl_cons]
    refine ih _ x ?_
    unfold addEssential
    split_ifs <;> first | exact h | exact List.mem_append_left _ h

/-- Folding `addEssential` over a list containing `e` includes `e`
whenever the allow-list permits it. -/
theorem mem_foldl_addEssential (cfg : Config) (e : String)
    (hgen : shouldGenerateOperation e cfg = true) :
    ∀ (l : List String), e ∈ l → ∀ acc, e ∈ l.foldl (addEssential cfg) acc := by
  intro l
  induction l with
  | nil =>
    intro h
    simp at h
  | cons a rest ih =>
    intro h acc
    rw [List.foldl_cons]
    rcases List.mem_cons.mp h with rfl | hmem
    · refine mem_foldl_addEssential_of_mem cfg rest _ e ?_
      unfold addEssential
      by_cases hc : acc.contains e = true
      · rw [if_pos hc]
        exact (contains_iff_mem acc e).mp hc
      · rw [if_neg hc, if_pos hgen]
        exact List.mem_append_right _ (by simp)
    · exact ih hmem _

/-- Elements produced by the essentials loop were either already
accumulated or pass the configured allow-list. -/
theorem mem_of_foldl_addEssential (cfg : Config) :
    ∀ (l acc : List String) (x : String),
      x ∈ l.foldl (addEssential cfg) acc →
      x ∈ acc ∨ shouldGenerateOperation x cfg = true := by
  intro l
  induction l with
  | nil =>
    intro acc x h
    exact Or.inl (by simpa using h)
  | cons a rest ih =>
    intro acc x h
    rw [List.foldl_cons] at h
    rcases ih _ x h with hin | hgen
    · unfold addEssential at hin
      split_ifs at hin with hc hg
      · exact Or.inl hin
      · rcases List.mem_append.mp hin with hin | hin
        · exact Or.inl hin
        · have hx : x = a := by simpa using hin
          subst hx
          exact Or.inr hg
      · exact Or.inl hin
    · exact Or.inr hgen

/-- Soft-delete read branch of `generateHandlerCode`: for a marker model,
the read-family operations issue the original call with the injected
where-clause. -/
theorem buildPrismaCall_soft_read (cfg : Config) (model : CodeGenModel)
    (input : HandlerInput) (op : String)
    (hmark : hasDeletedAtField model = true)
    (hop : (["findFirst", "findMany", "count", "aggregate", "groupBy"].contains op) = true) :
    buildPrismaCall cfg model op input =
      { method := getPrismaMethodName op,
        args := { passthroughArgs input with
                  whereClause := some (injectDeletedAt input.whereClause) } } := by
  have hop2 : op = "findFirst" ∨ op = "findMany" ∨ op = "count" ∨
      op = "aggregate" ∨ op = "groupBy" := by
    have h := (contains_iff_mem _ op).mp hop
    simpa using h
  rcases hop2 with rfl | rfl | rfl | rfl | rfl <;> simp [buildPrismaCall, hmark]

/-- Soft-delete findUnique branch of `generateHandlerCode`. -/
theorem buildPrismaCall_soft_findUnique (cfg : Config) (model : CodeGenModel)
    (input : HandlerInput) (hmark : hasDeletedAtField model = true) :
    buildPrismaCall cfg model "findUnique" input =
      { method := "findUnique",
        args := { passthroughArgs input with
                  whereClause := some (injectDeletedAt input.whereClause) } } := by
  have hc : (["findFirst", "findMany", "count", "aggregate", "groupBy"].contains
      "findUnique") = false := by decide
  simp [buildPrismaCall, hmark, hc]

/-- Soft-delete delete branch of `generateHandlerCode`. -/
theorem buildPrismaCall_soft_delete (cfg : Config) (model : CodeGenModel)
    (input : HandlerInput) (hmark : hasDeletedAtField model = true) :
    buildPrismaCall cfg model "delete" input =
      { method := "update",
        args := { whereClause := input.whereClause,
                  data := some DataClause.setDeletedAtNow } } := by
  have hc : (["findFirst", "findMany", "count", "aggregate", "groupBy"].contains
      "delete") = false := by decide
  have h2 : "delete" ≠ "findUnique" := by decide
  simp [buildPrismaCall, hmark, hc, h2]

/-- Soft-delete deleteMany branch of `generateHandlerCode`. -/
theorem buildPrismaCall_soft_deleteMany (cfg : Config) (model : CodeGenModel)
    (input : HandlerInput) (hmark : hasDeletedAtField model = true) :
    buildPrismaCall cfg model "deleteMany" input =
      { method := "updateMany",
        args := { whereClause := input.whereClause,
                  data := some DataClause.setDeletedAtNow } } := by
  have hc : (["findFirst", "findMany", "count", "aggregate", "groupBy"].contains
      "deleteMany") = false := by decide
  have h2 : "deleteMany" ≠ "findUnique" := by decide
  have h3 : "deleteMany" ≠ "delete" := by decide
  simp [buildPrismaCall, hmark, hc, h2, h3]

/-- For a model without the marker field, group-by goes to the dedicated
group-by branch. -/
theorem buildPrismaCall_groupBy_plain (cfg : Config) (model : CodeGenModel)
    (input : HandlerInput) (hmark : hasDeletedAtField model = false) :
    buildPrismaCall cfg model "groupBy" input =
      { method := "groupBy", args := groupByBranchArgs model input } := by
  simp [buildPrismaCall, hmark]

/-- For a model without the marker field, aggregate goes to the dedicated
aggregate branch. -/
theorem buildPrismaCall_aggregate_plain (cfg : Config) (model : CodeGenModel)
    (input : HandlerInput) (hmark : hasDeletedAtField model = false) :
    buildPrismaCall cfg model "aggregate" input =
      { method := "aggregate", args := aggregateBranchArgs input } := by
  have h1 : "aggregate" ≠ "groupBy" := by decide
  simp [buildPrismaCall, hmark, h1]

/-- For a model without the marker field, operations other than
group-by/aggregate/delete/deleteMany reach the final generic call. -/
theorem buildPrismaCall_plain_final (cfg : Config) (model : CodeGenModel)
    (input : HandlerInput) (op : String)
    (hmark : hasDeletedAtField model = false)
    (h1 : op ≠ "groupBy") (h2 : op ≠ "aggregate")
    (h3 : op ≠ "delete") (h4 : op ≠ "deleteMany") :
    buildPrismaCall cfg model op input =
      { method := getPrismaMethodName op,
        args := finalInputParam cfg model op input } := by
  simp [buildPrismaCall, hmark, h1, h2, h3, h4]

/-- Truthiness of the capped take equals truthiness of the caller's take. -/
theorem truthy_take_cap (o : Option Int) :
    jsTruthyOptInt (if jsTruthyOptInt o then some (min (o.getD 0) 500) else none) =
      jsTruthyOptInt o := by
  rcases o with _ | n
  · simp [jsTruthyOptInt]
  · by_cases hn : n = 0
    · simp [jsTruthyOptInt, hn]
    · simp [jsTruthyOptInt, hn]
      omega

/-- Truthiness of the forwarded skip equals truthiness of the caller's
skip. -/
theorem truthy_skip_forward (o : Option Int) :
    jsTruthyOptInt (if jsTruthyOptInt o then o else none) = jsTruthyOptInt o := by
  rcases o with _ | n
  · simp [jsTruthyOptInt]
  · by_cases hn : n = 0
    · simp [jsTruthyOptInt, hn]
    · simp [jsTruthyOptInt, hn]

/-! ## Claim C1 -/

/-- C1: the claim states that with entity-name-prefixing configured the
derived procedure name is `lowerFirst(N) + Op`, retaining internal
capitalization, so that
`deriveProcedureName("AccommodationPricing","Create") =
"accommodationPricingCreate"`.  The code (`getProcedureName`) instead
lower-cases the whole entity name: at the failing input it produces
`"accommodationpricingCreate"`, which differs from the lower-camel-cased
form the claim (and the repository's own tests) require. -/
theorem c1_procedure_name_lowercases_whole_name :
    getProcedureName defaultCfg "create" "AccommodationPricing" =
      "accommodationpricingCreate" ∧
    lowerFirst "AccommodationPricing" ++ jsCapitalize "create" =
      "accommodationPricingCreate" ∧
    getProcedureName defaultCfg "create" "AccommodationPricing" ≠
      lowerFirst "AccommodationPricing" ++ jsCapitalize "create" := by
  decide

/-! ## Claim C2 -/

/-- C2 counterexample: under the default configuration (prefixing on, all
actions allowed) the authorization table's key set for entity `User` and
the generated procedure-name set are not equal — `"create"` is a rule key
but not a procedure name, `"userFindMany"` is a procedure name but not a
rule key; the same failure occurs without prefixing, where the read-many
procedure is named `"findMany"` while its rule key is `"list"`. -/
theorem c2_counterexample :
    "create" ∈ shieldRuleKeys defaultCfg ∧
    "create" ∉ modelProcedureNames defaultCfg "User" fullOperationKeys ∧
    "userFindMany" ∈ modelProcedureNames defaultCfg "User" fullOperationKeys ∧
    "userFindMany" ∉ shieldRuleKeys defaultCfg ∧
    "list" ∈ shieldRuleKeys noPrefixCfg ∧
    "list" ∉ modelProcedureNames noPrefixCfg "User" fullOperationKeys ∧
    "findMany" ∈ modelProcedureNames noPrefixCfg "User" fullOperationKeys ∧
    "findMany" ∉ shieldRuleKeys noPrefixCfg := by
  decide

/-- C2 amended: for every entity and every configuration, the key set of
the auto-generated authorization rule table is the fixed image of the
shield operation-mapping table — the thirteen keys `list, findById,
findFirst, create, createMany, update, updateMany, upsert, delete,
deleteMany, count, aggregate, groupBy` — independent of the operation
allow-list and of the prefixing configuration; it is keyed by renamed
bare operation keys (`findMany ↦ list`), not by the generated procedure
names. -/
theorem c2_shield_keys_fixed (cfg : Config) :
    shieldRuleKeys cfg =
      ["list", "findById", "findFirst", "create", "createMany", "update",
       "updateMany", "upsert", "delete", "deleteMany", "count",
       "aggregate", "groupBy"] ∧
    shieldRuleKeys cfg = shieldOperationMappings.map Prod.snd := by
  exact ⟨rfl, rfl⟩

/-! ## Claim C3 -/

/-- C3: when the configured default read and write rule values are not
among the recognized values (`auth`, `deny`, `allow`), both resolve to
the deny rule, and consequently every entry of every entity's generated
rule table — read and write operations alike — is assigned `deny`, never
`allow`. -/
theorem c3_unrecognized_rule_denies (cfg : Config)
    (hr : cfg.defaultReadRule ∉ recognizedRuleValues)
    (hw : cfg.defaultWriteRule ∉ recognizedRuleValues) :
    resolveReadRule cfg.defaultReadRule = ShieldRule.deny ∧
    resolveWriteRule cfg.defaultWriteRule = ShieldRule.deny ∧
    ∀ key rule, (key, rule) ∈ generateModelShieldEntries cfg →
      rule = ShieldRule.deny := by
  simp only [recognizedRuleValues, List.mem_cons, List.not_mem_nil, or_false,
    not_or] at hr hw
  obtain ⟨hr1, hr2, hr3⟩ := hr
  obtain ⟨hw1, hw2, hw3⟩ := hw
  have hread : resolveReadRule cfg.defaultReadRule = ShieldRule.deny := by
    simp [resolveReadRule, hr1, hr2, hr3]
  have hwrite : resolveWriteRule cfg.defaultWriteRule = ShieldRule.deny := by
    simp [resolveWriteRule, hw1, hw2, hw3]
  refine ⟨hread, hwrite, ?_⟩
  intro key rule hmem
  have hsnd : ((key, rule) : String × ShieldRule).2 = ShieldRule.deny := by
    unfold generateModelShieldEntries at hmem
    rcases List.mem_map.mp hmem with ⟨q, _, hq⟩
    rw [← hq]
    by_cases hw : isWriteOperation q.1 = true
    · simp [hw, hwrite]
    · simp [hw, hread]
  exact hsnd

/-- Witness for C3 at the concrete unrecognized values `"admin"` and
`"everything"`: both halves resolve to deny and the `count` entry of the
generated table is deny. -/
theorem c3_witness :
    resolveReadRule "admin" = ShieldRule.deny ∧
    resolveWriteRule "everything" = ShieldRule.deny :=
  ⟨(c3_unrecognized_rule_denies
      { defaultCfg with defaultReadRule := "admin", defaultWriteRule := "everything" }
      (by decide) (by decide)).1,
   (c3_unrecognized_rule_denies
      { defaultCfg with defaultReadRule := "admin", defaultWriteRule := "everything" }
      (by decide) (by decide)).2.1⟩

/-! ## Claim C4 -/

/-- C4 counterexample: with an explicit allow-list of only `findMany`, the
essential operation `create` is not generated — the essentials loop is
still gated by `shouldGenerateOperation`, so essential kinds are not
force-included against the allow-list. -/
theorem c4_counterexample :
    "create" ∈ essentialOperations ∧
    "create" ∉ generateModelBaseOps
      { defaultCfg with generateModelActions := ["findMany"] } fullOperationKeys ∧
    generateModelBaseOps
      { defaultCfg with generateModelActions := ["findMany"] } fullOperationKeys =
      ["findMany"] := by
  decide

/-- C4 amended: an essential operation kind (create, findMany, findUnique,
update, delete, count) is generated for a model if and only if the
configured allow-list contains it — essentials are force-included only
relative to the model's operation-mapping entry (added even when absent
from it), never against the allow-list. -/
theorem c4_essential_iff_allowed (cfg : Config) (operationKeys : List String)
    (op : String) (h : op ∈ essentialOperations) :
    op ∈ generateModelBaseOps cfg operationKeys ↔
      shouldGenerateOperation op cfg = true := by
  unfold generateModelBaseOps ensureEssentials
  constructor
  · intro hmem
    rcases mem_of_foldl_addEssential cfg essentialOperations _ op hmem with hin | hgen
    · rcases mem_of_generateOpsLoop cfg operationKeys [] op hin with h0 | hgen
      · simp at h0
      · exact hgen
    · exact hgen
  · intro hgen
    exact mem_foldl_addEssential cfg op hgen essentialOperations h _

/-- Witness for C4 at a model whose operation mapping lacks `create`: the
allow-list containing `create` makes the essential loop add it. -/
theorem c4_witness :
    "create" ∈ generateModelBaseOps
      { defaultCfg with generateModelActions := ["create", "findMany"] }
      ["model", "findMany"] :=
  (c4_essential_iff_allowed
    { defaultCfg with generateModelActions := ["create", "findMany"] }
    ["model", "findMany"] "create" (by decide)).mpr (by decide)

/-! ## Claim C5 -/

/-- C5: for an entity carrying the soft-delete marker field with
soft-delete enabled, the synthesized data-access call is rewritten per
operation kind: the read-family operations (read-many, read-first, count,
aggregate, group-by) and read-unique inject the where-clause with
`deletedAt: null` exactly when the caller left the marker unset;
read-unique additionally raises not-found on a returned record whose
marker is non-null; delete becomes an update that sets the marker to the
current timestamp (never a physical delete), and delete-many likewise
becomes an update-many. -/
theorem c5_soft_delete_rewrite (cfg : Config) (model : CodeGenModel)
    (input : HandlerInput)
    (hmark : hasDeletedAtField model = true)
    (hsoft : cfg.enableSoftDeletes = true) :
    (∀ op, op ∈ ["findMany", "findFirst", "count", "aggregate", "groupBy"] →
       buildPrismaCall cfg model op input =
         { method := getPrismaMethodName op,
           args := { passthroughArgs input with
                     whereClause := some (injectDeletedAt input.whereClause) } }) ∧
    buildPrismaCall cfg model "findUnique" input =
      { method := "findUnique",
        args := { passthroughArgs input with
                  whereClause := some (injectDeletedAt input.whereClause) } } ∧
    ((input.whereClause.getD {}).deletedAt = none →
      (injectDeletedAt input.whereClause).deletedAt = some JsMarker.nullVal) ∧
    (∀ v, (input.whereClause.getD {}).deletedAt = some v →
      (injectDeletedAt input.whereClause).deletedAt = some v) ∧
    (∀ t p, runHandler cfg model "findUnique" (DbResult.record (some t) p) =
      Except.error HandlerErr.notFound) ∧
    buildPrismaCall cfg model "delete" input =
      { method := "update",
        args := { whereClause := input.whereClause,
                  data := some DataClause.setDeletedAtNow } } ∧
    buildPrismaCall cfg model "deleteMany" input =
      { method := "updateMany",
        args := { whereClause := input.whereClause,
                  data := some DataClause.setDeletedAtNow } } := by
  refine ⟨?_, ?_, ?_, ?_, ?_, ?_, ?_⟩
  · intro op hop
    refine buildPrismaCall_soft_read cfg model input op hmark ?_
    rcases (by simpa using hop : op = "findMany" ∨ op = "findFirst" ∨
      op = "count" ∨ op = "aggregate" ∨ op = "groupBy") with
      rfl | rfl | rfl | rfl | rfl <;> decide
  · exact buildPrismaCall_soft_findUnique cfg model input hmark
  · intro h
    simp [injectDeletedAt, h]
  · intro v h
    simp [injectDeletedAt, h]
  · intro t p
    simp [runHandler, hmark, dbTruthyDeletedAt]
  · exact buildPrismaCall_soft_delete cfg model input hmark
  · exact buildPrismaCall_soft_deleteMany cfg model input hmark

/-- Witness for C5: the delete procedure of the soft-delete entity `Post`
issues an update that sets the marker. -/
theorem c5_witness :
    buildPrismaCall softCfg postModel "delete" { whereClause := some {} } =
      { method := "update",
        args := { whereClause := some {},
                  data := some DataClause.setDeletedAtNow } } :=
  (c5_soft_delete_rewrite softCfg postModel { whereClause := some {} }
    (by decide) rfl).2.2.2.2.2.1

/-! ## Claim C6 -/

/-- C6 counterexample: for the soft-delete entity `Post`, the generated
read-unique handler raises not-found on an underlying result that *is* a
record (its marker is non-null), so not-found is not raised exactly when
the lookup returns no record. -/
theorem c6_counterexample :
    runHandler softCfg postModel "findUnique" (DbResult.record (some 5) "x") =
      Except.error HandlerErr.notFound ∧
    DbResult.record (some 5) "x" ≠ DbResult.nullRes := by
  decide

/-- C6 amended: a generated handler raises not-found exactly when the
operation is read-unique or read-first and the underlying lookup returned
no record or — for an entity with the soft-delete marker field — a record
whose marker is non-null; every other operation kind never raises and
returns the shaped underlying result (count results as a `{count}`
wrapper, everything else unchanged), so zero-row write results are
results, not errors. -/
theorem c6_not_found_policy (cfg : Config) (model : CodeGenModel)
    (op : String) (result : DbResult) :
    (runHandler cfg model op result = Except.error HandlerErr.notFound ↔
      ((op = "findUnique" ∨ op = "findFirst") ∧
        (result = DbResult.nullRes ∨
          (hasDeletedAtField model = true ∧ dbTruthyDeletedAt result = true)))) ∧
    (¬(op = "findUnique" ∨ op = "findFirst") →
      runHandler cfg model op result = Except.ok (shapeReturn cfg op result)) := by
  constructor
  · unfold runHandler
    by_cases hop : op = "findUnique" ∨ op = "findFirst"
    · rw [if_pos hop]
      by_cases hnull : result = DbResult.nullRes
      · rw [if_pos hnull]
        simp [hop, hnull]
      · rw [if_neg hnull]
        rw [softGateBool cfg.enableSoftDeletes (hasDeletedAtField model)]
        by_cases hb : (hasDeletedAtField model && dbTruthyDeletedAt result) = true
        · rw [if_pos hb]
          obtain ⟨h1, h2⟩ : hasDeletedAtField model = true ∧
              dbTruthyDeletedAt result = true := by simpa using hb
          simp [hop, hnull, h1, h2]
        · rw [if_neg hb]
          have hb2 : ¬(hasDeletedAtField model = true ∧
              dbTruthyDeletedAt result = true) := by simpa using hb
          simp [hop, hnull]
          intro h1
          by_cases h2 : dbTruthyDeletedAt result = true
          · exact absurd ⟨h1, h2⟩ hb2
          · simpa using h2
    · rw [if_neg hop]
      simp [hop]
  · intro hop
    unfold runHandler
    rw [if_neg hop]

/-- Witness for C6: an update-many matching zero rows is returned as a
result, not an error. -/
theorem c6_witness :
    runHandler defaultCfg userModel "updateMany" (DbResult.batchRes 0) =
      Except.ok (shapeReturn defaultCfg "updateMany" (DbResult.batchRes 0)) :=
  (c6_not_found_policy defaultCfg userModel "updateMany" (DbResult.batchRes 0)).2
    (by decide)

/-! ## Claim C7 -/

/-- C7: the error taxonomy mapper is total on low-level data-layer error
inputs: every such input maps to exactly one of Conflict, NotFound,
BadRequest, InternalError — uniqueness (P2002) and foreign-key (P2003)
violations to Conflict, missing-record signals (P2025, P2016, P2021) to
NotFound, malformed-value (P2000), schema (P2022) and validation errors
to BadRequest, everything unrecognized to InternalError — and the mapped
result is never the re-thrown original low-level error. -/
theorem c7_error_mapper_total (e : PrismaErrorInput) (h : isLowLevel e = true) :
    (prismaErrorMapper e = MappedError.conflict ∨
     prismaErrorMapper e = MappedError.notFound ∨
     prismaErrorMapper e = MappedError.badRequest ∨
     prismaErrorMapper e = MappedError.internalServerError) ∧
    (∀ c s, prismaErrorMapper e ≠ MappedError.rethrownOriginal c s) ∧
    (∀ c, e = PrismaErrorInput.knownRequest c →
      ((c = "P2002" ∨ c = "P2003") →
        prismaErrorMapper e = MappedError.conflict) ∧
      ((c = "P2025" ∨ c = "P2016" ∨ c = "P2021") →
        prismaErrorMapper e = MappedError.notFound) ∧
      ((c = "P2022" ∨ c = "P2000") →
        prismaErrorMapper e = MappedError.badRequest) ∧
      (c ∉ ["P2002", "P2003", "P2025", "P2016", "P2021", "P2022", "P2000"] →
        prismaErrorMapper e = MappedError.internalServerError)) ∧
    (e = PrismaErrorInput.validation →
      prismaErrorMapper e = MappedError.badRequest) ∧
    (∀ t, e = PrismaErrorInput.unknownErr t →
      prismaErrorMapper e = MappedError.internalServerError) := by
  cases e with
  | orpcLike c s => simp [isLowLevel] at h
  | validation => simp [prismaErrorMapper]
  | unknownErr t => simp [prismaErrorMapper]
  | knownRequest c =>
    refine ⟨?_, ?_, ?_, by simp, by simp⟩
    · simp only [prismaErrorMapper]
      split_ifs <;> simp
    · intro cc ss
      simp only [prismaErrorMapper]
      split_ifs <;> simp
    · intro c2 hc2
      injection hc2 with hcc
      subst hcc
      refine ⟨?_, ?_, ?_, ?_⟩
      · intro hd
        rcases hd with rfl | rfl <;> decide
      · intro hd
        rcases hd with rfl | rfl | rfl <;> decide
      · intro hd
        rcases hd with rfl | rfl <;> decide
      · intro hnot
        have h1 : ¬(c = "P2002" ∨ c = "P2003") := by
          intro hd
          rcases hd with rfl | rfl <;> exact hnot (by decide)
        have h2 : ¬(c = "P2025" ∨ c = "P2016" ∨ c = "P2021") := by
          intro hd
          rcases hd with rfl | rfl | rfl <;> exact hnot (by decide)
        have h3 : ¬(c = "P2022" ∨ c = "P2000") := by
          intro hd
          rcases hd with rfl | rfl <;> exact hnot (by decide)
        simp [prismaErrorMapper, h1, h2, h3]

/-- Witness for C7 at an unrecognized known-request code. -/
theorem c7_witness :
    prismaErrorMapper (PrismaErrorInput.knownRequest "P1234") =
      MappedError.conflict ∨
    prismaErrorMapper (PrismaErrorInput.knownRequest "P1234") =
      MappedError.notFound ∨
    prismaErrorMapper (PrismaErrorInput.knownRequest "P1234") =
      MappedError.badRequest ∨
    prismaErrorMapper (PrismaErrorInput.knownRequest "P1234") =
      MappedError.internalServerError :=
  (c7_error_mapper_total (PrismaErrorInput.knownRequest "P1234") (by decide)).1

/-! ## Claim C8 -/

/-- C8 counterexample: for the soft-delete entity `Post` (which has a
`deletedAt` field), a group-by call takes the soft-delete filter branch
instead of the group-by construction branch, so an empty `by` list is
*not* replaced by `["id"]` and pagination without an ordering does *not*
synthesize one. -/
theorem c8_counterexample :
    (buildPrismaCall softCfg postModel "groupBy"
      { byList := some [], take := some 10 }).args.byList = some [] ∧
    (buildPrismaCall softCfg postModel "groupBy"
      { byList := some [], take := some 10 }).args.orderBy = none ∧
    some ([] : List String) ≠ some ["id"] := by
  decide

/-- C8 amended: for every entity *without* the soft-delete marker field
(marker entities take the filter-injection path, which forwards `by`,
`take`, `skip` and `orderBy` unchanged), a group-by call resolves an
empty caller-supplied grouping-key list to `["id"]`, and a truthy take or
skip without a caller ordering synthesizes the ascending-by-id
ordering. -/
theorem c8_group_by_defaults (cfg : Config) (model : CodeGenModel)
    (input : HandlerInput) (hmark : hasDeletedAtField model = false) :
    (input.byList = some [] →
      (buildPrismaCall cfg model "groupBy" input).args.byList = some ["id"]) ∧
    ((jsTruthyOptInt input.take || jsTruthyOptInt input.skip) = true →
      input.orderBy = none →
      (buildPrismaCall cfg model "groupBy" input).args.orderBy =
        some OrderBySpec.idAsc) := by
  rw [buildPrismaCall_groupBy_plain cfg model input hmark]
  constructor
  · intro h
    simp [groupByBranchArgs, h]
  · intro ht hob
    simp only [groupByBranchArgs, hob, Option.map_none]
    rw [truthy_take_cap input.take, truthy_skip_forward input.skip, ht]
    simp

/-- Witness for C8 on the markerless entity `User`. -/
theorem c8_witness :
    (buildPrismaCall defaultCfg userModel "groupBy"
      { byList := some [], take := some 10 }).args.byList = some ["id"] ∧
    (buildPrismaCall defaultCfg userModel "groupBy"
      { byList := some [], take := some 10 }).args.orderBy =
      some OrderBySpec.idAsc :=
  ⟨(c8_group_by_defaults defaultCfg userModel
      { byList := some [], take := some 10 } (by decide)).1 rfl,
   (c8_group_by_defaults defaultCfg userModel
      { byList := some [], take := some 10 } (by decide)).2 (by decide) rfl⟩

/-! ## Claim C9 -/

/-- C9 counterexample: the aggregate branch spreads the caller's input
unchanged, so for the entity `Tag` with zero numeric fields an aggregate
call that supplies a `_sum` selection still contains `_sum` in the
synthesized call shape. -/
theorem c9_counterexample :
    (getAvailableAggregations tagModel).hasNumericFields = false ∧
    (buildPrismaCall defaultCfg tagModel "aggregate"
      { sumSel := some "sel" }).args.sumSel = some "sel" := by
  decide

/-- C9 amended: for entities without the soft-delete marker field, the
group-by branch forwards `_sum`/`_avg` only when the entity has a
non-list numeric field — so with zero numeric fields a group-by call
shape never contains sum or avg; the aggregate branch forwards all
caller-supplied selections unchanged (it does not filter by eligibility),
and when the caller selects no aggregate sub-field at all it includes
the `_count: {_all: true}` fallback, so an aggregate call selecting
nothing is never emitted. -/
theorem c9_aggregation_eligibility (cfg : Config) (model : CodeGenModel)
    (input : HandlerInput) (hmark : hasDeletedAtField model = false) :
    ((getAvailableAggregations model).hasNumericFields = false →
      (buildPrismaCall cfg model "groupBy" input).args.sumSel = none ∧
      (buildPrismaCall cfg model "groupBy" input).args.avgSel = none) ∧
    ((buildPrismaCall cfg model "aggregate" input).args.sumSel = input.sumSel ∧
     (buildPrismaCall cfg model "aggregate" input).args.avgSel = input.avgSel) ∧
    (input.countSel = none → input.sumSel = none → input.avgSel = none →
     input.minSel = none → input.maxSel = none →
      (buildPrismaCall cfg model "aggregate" input).args.countSel =
        some CountSel.allTrue) := by
  have hg := buildPrismaCall_groupBy_plain cfg model input hmark
  have ha := buildPrismaCall_aggregate_plain cfg model input hmark
  refine ⟨?_, ?_, ?_⟩
  · intro hnum
    have hsum : (getAvailableAggregations model).supportsSum = false := hnum
    have havg : (getAvailableAggregations model).supportsAvg = false := hnum
    rw [hg]
    constructor <;> simp [groupByBranchArgs, hsum, havg]
  · rw [ha]
    unfold aggregateBranchArgs
    split_ifs <;> simp [passthroughArgs]
  · intro h1 h2 h3 h4 h5
    rw [ha]
    unfold aggregateBranchArgs
    rw [if_pos ⟨h1, h3, h2, h4, h5⟩]

/-- Witness for C9 on the numeric-free entity `Tag`: group-by drops a
caller `_sum`, and a selection-free aggregate gets the count fallback. -/
theorem c9_witness :
    (buildPrismaCall defaultCfg tagModel "groupBy"
      { sumSel := some "sel" }).args.sumSel = none ∧
    (buildPrismaCall defaultCfg tagModel "aggregate" {}).args.countSel =
      some CountSel.allTrue :=
  ⟨((c9_aggregation_eligibility defaultCfg tagModel
      { sumSel := some "sel" } (by decide)).1 (by decide)).1,
   (c9_aggregation_eligibility defaultCfg tagModel {} (by decide)).2.2
     rfl rfl rfl rfl rfl⟩

/-! ## Claim C10 -/

/-- C10 counterexample: the 500-row cap does not apply to every group-by
call — for the soft-delete entity `Post` the group-by call takes the
filter-injection branch and forwards `take: 600` uncapped. -/
theorem c10_counterexample :
    (buildPrismaCall softCfg postModel "groupBy"
      { take := some 600 }).args.take = some 600 ∧
    (buildPrismaCall softCfg postModel "groupBy"
      { take := some 600 }).args.take ≠ some (min (600 : Int) 500) := by
  decide

/-- C10 amended: for entities without the soft-delete marker field, a
group-by call with a truthy (present, nonzero) take emits
`take = min(take, 500)`; the cap applies to no other operation kind —
e.g. a find-many call forwards the caller's take unchanged. -/
theorem c10_group_by_take_cap (cfg : Config) (model : CodeGenModel)
    (input : HandlerInput) (hmark : hasDeletedAtField model = false) :
    (∀ t : Int, input.take = some t → t ≠ 0 →
      (buildPrismaCall cfg model "groupBy" input).args.take =
        some (min t 500)) ∧
    (buildPrismaCall cfg model "findMany" input).args.take = input.take := by
  constructor
  · intro t ht hnz
    rw [buildPrismaCall_groupBy_plain cfg model input hmark]
    simp [groupByBranchArgs, ht, jsTruthyOptInt, hnz]
  · rw [buildPrismaCall_plain_final cfg model input "findMany" hmark
      (by decide) (by decide) (by decide) (by decide)]
    simp [finalInputParam, passthroughArgs]

/-- Witness for C10 on the markerless entity `User`: group-by caps
`take: 600` at 500 while find-many forwards it unchanged. -/
theorem c10_witness :
    (buildPrismaCall defaultCfg userModel "groupBy"
      { take := some 600 }).args.take = some 500 ∧
    (buildPrismaCall defaultCfg userModel "findMany"
      { take := some 600 }).args.take = some 600 :=
  ⟨((c10_group_by_take_cap defaultCfg userModel { take := some 600 }
      (by decide)).1 600 rfl (by decide)).trans (by decide),
   (c10_group_by_take_cap defaultCfg userModel { take := some 600 }
      (by decide)).2⟩

end PrismaOrpcGen
